import Mathlib

/-!
Verification of the connector/dispatch layer and the heuristic automation
engine of the GOD repository (src/src/llm.ts, src/src/automation.ts,
src/src/types.ts).

JavaScript strings are modelled as Lean `String` / `List Char` (code points
instead of UTF-16 units; identical on the ASCII data these functions handle).
Network effects are modelled by splitting each operation into a pure
request-building stage (everything before `fetch`) and a pure
response-handling stage (everything after), so "fails before any network
call" is the statement that the request-building stage already returns an
error.
-/

namespace GOD

instance exceptDecEq {e a : Type} [DecidableEq e] [DecidableEq a] : DecidableEq (Except e a) := fun x y =>
  match x, y with
  | .ok v, .ok w => if h : v = w then isTrue (by rw [h]) else isFalse (by intro hc; cases hc; exact h rfl)
  | .error v, .error w => if h : v = w then isTrue (by rw [h]) else isFalse (by intro hc; cases hc; exact h rfl)
  | .ok _, .error _ => isFalse (by intro hc; cases hc)
  | .error _, .ok _ => isFalse (by intro hc; cases hc)

/-- JS whitespace test (ASCII fragment, as used by trim and the regex class). -/
def isJsWs (c : Char) : Bool := c.isWhitespace

/-- Characters of JS String.prototype.trim applied to a char list. -/
def trimChars (l : List Char) : List Char :=
  ((l.dropWhile isJsWs).reverse.dropWhile isJsWs).reverse

/-- JS String.prototype.trim. -/
def jsTrim (s : String) : String := ⟨trimChars s.data⟩

/-- JS String.prototype.slice(0, n). -/
def jsSlice (s : String) (n : Nat) : String := ⟨s.data.take n⟩

/-- JS String.prototype.toLowerCase (code-point-wise). -/
def lowerStr (s : String) : String := ⟨s.data.map Char.toLower⟩

/-- Does pat occur at the head of the list (literal, case-sensitive)? -/
def leadsWith : List Char → List Char → Bool
  | [], _ => true
  | _ :: _, [] => false
  | p :: ps, c :: cs => p = c && leadsWith ps cs

/-- Does pat occur anywhere in the list? -/
def hasSubList (pat : List Char) : List Char → Bool
  | [] => pat.isEmpty
  | c :: rest => leadsWith pat (c :: rest) || hasSubList pat rest

/-- JS String.prototype.includes. -/
def jsIncludes (s pat : String) : Bool := hasSubList pat.data s.data

/-- JS String.prototype.startsWith. -/
def jsStartsWith (s pat : String) : Bool := leadsWith pat.data s.data

/-- JS String.prototype.split on a single separator character
(used for query strings; empty fields are kept, as in JS). -/
def splitOnChar (sep : Char) (l : List Char) : List (List Char) :=
  l.foldr
    (fun c acc =>
      match acc with
      | [] => [[c]]
      | a :: rest => if c = sep then [] :: a :: rest else (c :: a) :: rest)
    [[]]

/-! Data model, from src/src/types.ts. -/

inductive Role
  | user
  | assistant
  | system
deriving DecidableEq, Repr

def roleToStr : Role → String
  | .user => "user"
  | .assistant => "assistant"
  | .system => "system"

structure Message where
  id : String
  role : Role
  content : String
  createdAt : String
deriving DecidableEq, Repr

structure AutomationTask where
  id : String
  name : String
  command : String
  enabled : Bool
deriving DecidableEq, Repr

structure LlmSettings where
  endpoint : String
  model : String
  apiKey : String
  systemPrompt : String
deriving DecidableEq, Repr

/-! Connector dispatcher, from src/src/llm.ts. -/

/-- Machine-level classification of the non-2xx branches of
formatProviderHttpError (the spec's RateLimited / AuthError / ProviderError
taxonomy); the branch conditions are exactly those of the source. -/
inductive ErrorKind
  | rateLimited
  | authError
  | providerError
deriving DecidableEq, Repr

def classifyHttpStatus (status : Nat) : ErrorKind :=
  if status = 429 then .rateLimited
  else if status = 401 ∨ status = 403 then .authError
  else .providerError

/-- formatProviderHttpError, src/src/llm.ts lines 39-55. -/
def formatProviderHttpError (provider : String) (status : Nat) (details : String) : String :=
  let brief := jsSlice details 220
  if status = 429 then
    provider ++ " quota/rate limit reached (429): " ++ brief ++ ". Check billing/quota, then retry later or switch to Ollama preset."
  else if status = 401 ∨ status = 403 then
    provider ++ " authentication/permission failed (" ++ toString status ++ "): " ++ brief ++ ". Verify API key and provider permissions."
  else if provider = "Gemini" then
    "Gemini request failed (" ++ toString status ++ "): " ++ brief ++ ". Verify API key validity and that Generative Language API is enabled."
  else
    provider ++ " request failed (" ++ toString status ++ "): " ++ brief

/-- Failure taxonomy of the dispatcher; in the source every failure is a
thrown Error carrying only a message, the constructor records which code
path produced it. -/
inductive LlmFailure
  | configError (msg : String)
  | httpError (kind : ErrorKind) (msg : String)
  | emptyResponse (msg : String)
deriving DecidableEq, Repr

/-- isGeminiEndpoint, src/src/llm.ts lines 64-66. -/
def isGeminiEndpoint (endpoint : String) : Bool :=
  jsIncludes endpoint "generativelanguage.googleapis.com"

/-- isLocalOllamaEndpoint, src/src/llm.ts lines 68-71. -/
def isLocalOllamaEndpoint (endpoint : String) : Bool :=
  let value := lowerStr endpoint
  jsIncludes value "localhost:11434" || jsIncludes value "127.0.0.1:11434"

/-- resolveApiKey, src/src/llm.ts lines 73-80. The process-wide default key
import.meta.env.VITE_GOD_API_KEY is passed in as envKey. -/
def resolveApiKey (envKey : String) (settings : LlmSettings) : String :=
  let entered := jsTrim settings.apiKey
  if entered ≠ "" then entered else jsTrim envKey

/-- validateProviderSettings, src/src/llm.ts lines 82-103. -/
def validateProviderSettings (endpoint apiKey : String) : Option String :=
  let trimmedKey := jsTrim apiKey
  let gemini := isGeminiEndpoint endpoint
  if isLocalOllamaEndpoint endpoint then none
  else if trimmedKey = "" then none
  else if gemini && !(jsStartsWith trimmedKey "AIza") then
    some "Gemini preset expects a Google API key (usually starts with AIza)."
  else if !gemini && jsStartsWith trimmedKey "AIza" then
    some "OpenAI-compatible preset cannot use a Google Gemini key. Switch preset to Gemini API or provide a compatible provider key."
  else none

/-! Gemini endpoint rewriting.
withGeminiModel (src/src/llm.ts lines 118-125) computes
endpoint.replace(regex, "/models/" + trimmedModel + ":generateContent")
for the case-insensitive JS regex  \/models\/[^:/?]+(?::generateContent)? .
Two parts are modelled: the regex matcher (at each position, a
case-insensitive literal "/models/", then a maximal nonempty run of
characters outside :/? , then an optional case-insensitive literal
":generateContent"; no backtracking can change the outcome because the run
is stopped exactly by ':' '/' '?'), and the GetSubstitution expansion that
String.prototype.replace applies to a string replacement: the $-patterns
$$, $&, $-backquote and $-quote are interpreted against the match; this
regex has no capture groups and no named groups, so $n and the $< of
$<name> are emitted literally, which the default branch of expandDollar
reproduces (the lone $ is advanced past and the following character is
processed normally, giving the same output and continuation position). -/

/-- Case-insensitive literal match at the head; returns the rest on success. -/
def stripCI : List Char → List Char → Option (List Char)
  | [], s => some s
  | _ :: _, [] => none
  | p :: ps, c :: cs => if Char.toLower c = Char.toLower p then stripCI ps cs else none

/-- Case-insensitive literal match at the head that also returns the
consumed input characters (with their original casing), as the matched
substring of a regex match retains the input's casing. -/
def stripCI2 : List Char → List Char → Option (List Char × List Char)
  | [], s => some ([], s)
  | _ :: _, [] => none
  | p :: ps, c :: cs =>
    if Char.toLower c = Char.toLower p then
      match stripCI2 ps cs with
      | some (con, rest) => some (c :: con, rest)
      | none => none
    else none

/-- Character class [^:/?] of the model-segment regex. -/
def isSegChar (c : Char) : Bool := !(c = ':' || c = '/' || c = '?')

/-- The backquote character (code point 96). -/
def backquoteChar : Char := Char.ofNat 96

/-- The single-quote character (code point 39). -/
def singleQuoteChar : Char := Char.ofNat 39

/-- GetSubstitution of String.prototype.replace for a regex with no capture
groups and no named groups: m is the matched substring, b the part of the
input before the match, a the part after it.  $$ emits $, $& emits m,
$-backquote emits b, $-quote emits a; any other $ (including $n, $nn and
$<, which with zero capture groups and no named groups are emitted
literally by the spec) is emitted as a literal $ and scanning continues at
the following character. -/
def expandDollar (m b a : List Char) : List Char → List Char
  | [] => []
  | c :: rest =>
    if c = '$' then
      match rest with
      | [] => ['$']
      | d :: rest2 =>
        if d = '$' then '$' :: expandDollar m b a rest2
        else if d = '&' then m ++ expandDollar m b a rest2
        else if d = backquoteChar then b ++ expandDollar m b a rest2
        else if d = singleQuoteChar then a ++ expandDollar m b a rest2
        else '$' :: expandDollar m b a (d :: rest2)
    else c :: expandDollar m b a rest

/-- Try the model-segment regex at the current position; returns the
matched substring and the rest of the input after the match. -/
def tryMatchModelsAt (s : List Char) : Option (List Char × List Char) :=
  match stripCI2 "/models/".data s with
  | none => none
  | some (con1, rest1) =>
    let seg := rest1.takeWhile isSegChar
    let rest2 := rest1.dropWhile isSegChar
    if seg.isEmpty then none
    else
      match stripCI2 ":generateContent".data rest2 with
      | some (con2, r) => some (con1 ++ seg ++ con2, r)
      | none => some (con1 ++ seg, rest2)

/-- First-match replacement performed by String.prototype.replace for the
model-segment regex: before accumulates the input characters already
passed (the part of the original string before the current position, used
by the $-backquote pattern); the replacement template goes through
expandDollar against the match. -/
def geminiModelScan (model : List Char) : List Char → List Char → List Char
  | _, [] => []
  | before, c :: rest =>
    match tryMatchModelsAt (c :: rest) with
    | some (matched, restAfter) =>
      expandDollar matched before restAfter
          ("/models/".data ++ model ++ ":generateContent".data) ++ restAfter
    | none => c :: geminiModelScan model (before ++ [c]) rest

/-- withGeminiModel, src/src/llm.ts lines 118-125. -/
def withGeminiModel (endpoint model : String) : String :=
  let trimmedModel := jsTrim model
  if trimmedModel = "" then endpoint
  else ⟨geminiModelScan trimmedModel.data [] endpoint.data⟩

/-! Query-parameter handling.
withGeminiApiKey (src/src/llm.ts lines 105-116) goes through new URL(...),
url.searchParams.has('key') / set('key', k) and url.toString().  It is
modelled at the query-string level: the query is the part after the first
'?', parameters are '&'-separated, a parameter's name is the part before its
first '='.  searchParams.set appends the new parameter at the end.  Scope
of the model: endpoints accepted by the WHATWG URL parser.  On an endpoint
that is not a parseable absolute URL the source's new URL(endpoint) throws
a TypeError before any fetch (once the key is nonempty), a path this
embedding does not represent; on parser-accepted endpoints, WHATWG
percent-encoding/normalization and fragments are also not modelled (the
serialization is taken to be the identity on already-serialized URLs). -/

/-- The query string of a URL: everything after the first '?', if any. -/
def splitAtQM : List Char → Option (List Char)
  | [] => none
  | c :: rest => if c = '?' then some rest else splitAtQM rest

def queryParams (url : List Char) : List (List Char) :=
  match splitAtQM url with
  | none => []
  | some q => splitOnChar '&' q

def paramName (p : List Char) : List Char := p.takeWhile (· ≠ '=')

def paramValue (p : List Char) : List Char := (p.dropWhile (· ≠ '=')).drop 1

def hasQueryParam (url : List Char) (name : List Char) : Bool :=
  (queryParams url).any (fun p => paramName p = name)

/-- How many query parameters of the URL have the given name (observer used
to state the "exactly once" property). -/
def countQueryParam (url : List Char) (name : List Char) : Nat :=
  ((queryParams url).filter (fun p => paramName p = name)).length

/-- The values of the query parameters with the given name, in order. -/
def queryParamValues (url : List Char) (name : List Char) : List (List Char) :=
  ((queryParams url).filter (fun p => paramName p = name)).map paramValue

/-- withGeminiApiKey, src/src/llm.ts lines 105-116. -/
def withGeminiApiKey (endpoint apiKey : String) : String :=
  let trimmedApiKey := jsTrim apiKey
  if trimmedApiKey = "" then endpoint
  else if hasQueryParam endpoint.data "key".data then endpoint
  else if (splitAtQM endpoint.data).isSome then endpoint ++ "&key=" ++ trimmedApiKey
  else endpoint ++ "?key=" ++ trimmedApiKey

/-- buildHeaders, src/src/llm.ts lines 127-138 (header insertion order of
the source object literal is kept). -/
def buildHeaders (envKey : String) (settings : LlmSettings) : List (String × String) :=
  let apiKey := resolveApiKey envKey settings
  if apiKey ≠ "" then
    [("Content-Type", "application/json"), ("Authorization", "Bearer " ++ apiKey)]
  else
    [("Content-Type", "application/json")]

/-! Request payloads (the JSON bodies, as structured values). -/

structure GeminiPart where
  text : String
deriving DecidableEq, Repr

structure GeminiContent where
  role : String
  parts : List GeminiPart
deriving DecidableEq, Repr

structure GenerationConfig where
  maxOutputTokens : Nat
  temperature : Rat
deriving DecidableEq, Repr

structure GeminiPayload where
  systemInstructionParts : List GeminiPart
  contents : List GeminiContent
  generationConfig : Option GenerationConfig
deriving DecidableEq, Repr

structure ChatMessage where
  role : String
  content : String
deriving DecidableEq, Repr

structure OpenAiPayload where
  model : String
  messages : List ChatMessage
  temperature : Rat
  maxTokens : Option Nat
deriving DecidableEq, Repr

/-- The contents array of the Gemini body, src/src/llm.ts lines 159-164:
system-role messages are filtered out, assistant maps to model, everything
else to user, each wrapped as one text part. -/
def geminiContents (messages : List Message) : List GeminiContent :=
  (messages.filter (fun m => m.role ≠ Role.system)).map
    (fun m =>
      { role := if m.role = Role.assistant then "model" else "user",
        parts := [{ text := m.content }] })

/-- The Gemini request body of requestChatCompletion, src/src/llm.ts lines 155-165. -/
def geminiCompletionPayload (messages : List Message) (settings : LlmSettings) : GeminiPayload :=
  { systemInstructionParts := [{ text := jsTrim settings.systemPrompt }],
    contents := geminiContents messages,
    generationConfig := none }

/-- The OpenAI-compatible request body of requestChatCompletion,
src/src/llm.ts lines 189-202. -/
def openAiCompletionPayload (messages : List Message) (settings : LlmSettings) : OpenAiPayload :=
  { model := jsTrim settings.model,
    messages :=
      { role := "system", content := jsTrim settings.systemPrompt } ::
        messages.map (fun m => { role := roleToStr m.role, content := m.content }),
    temperature := (3 : Rat) / 10,
    maxTokens := none }

/-- A fully built outbound POST (the argument of the single fetch call).
The Gemini branch sends only the Content-Type header; the key travels in
the URL. -/
inductive BuiltRequest
  | gemini (url : String) (payload : GeminiPayload)
  | openAi (url : String) (headers : List (String × String)) (payload : OpenAiPayload)
deriving DecidableEq, Repr

/-- The URL the Gemini branch of requestChatCompletion posts to,
src/src/llm.ts lines 152-154. -/
def geminiRequestUrl (envKey : String) (settings : LlmSettings) : String :=
  withGeminiApiKey (withGeminiModel (jsTrim settings.endpoint) settings.model)
    (resolveApiKey envKey settings)

/-- The pure request-building stage of requestChatCompletion, src/src/llm.ts
lines 140-210: everything up to (and excluding) the fetch call.  An error
here means the call fails with zero network calls. -/
def buildChatCompletionRequest (envKey : String) (messages : List Message)
    (settings : LlmSettings) : Except LlmFailure BuiltRequest :=
  let endpointValue := jsTrim settings.endpoint
  let apiKey := resolveApiKey envKey settings
  if endpointValue = "" then
    .error (.configError "Connector endpoint is empty. Set a valid endpoint in Connector settings.")
  else
    match validateProviderSettings endpointValue apiKey with
    | some msg => .error (.configError msg)
    | none =>
      if isGeminiEndpoint (jsTrim settings.endpoint) then
        let modelEndpoint := withGeminiModel endpointValue settings.model
        let endpoint := withGeminiApiKey modelEndpoint apiKey
        .ok (.gemini endpoint (geminiCompletionPayload messages settings))
      else
        .ok (.openAi endpointValue (buildHeaders envKey settings)
              (openAiCompletionPayload messages settings))

/-- The probe body of testConnector's Gemini branch, src/src/llm.ts lines 242-251. -/
def geminiProbePayload (settings : LlmSettings) : GeminiPayload :=
  { systemInstructionParts := [{ text := jsTrim settings.systemPrompt }],
    contents := [{ role := "user", parts := [{ text := "Reply with: OK" }] }],
    generationConfig := some { maxOutputTokens := 8, temperature := 0 } }

/-- The probe body of testConnector's OpenAI-compatible branch,
src/src/llm.ts lines 269-277. -/
def openAiProbePayload (settings : LlmSettings) : OpenAiPayload :=
  { model := jsTrim settings.model,
    messages :=
      [{ role := "system", content := jsTrim settings.systemPrompt },
       { role := "user", content := "Reply with: OK" }],
    temperature := 0,
    maxTokens := some 8 }

/-- The pure request-building stage of testConnector, src/src/llm.ts lines
227-283 (validation and branching are identical to requestChatCompletion). -/
def buildTestConnectorRequest (envKey : String) (settings : LlmSettings) :
    Except LlmFailure BuiltRequest :=
  let endpointValue := jsTrim settings.endpoint
  let apiKey := resolveApiKey envKey settings
  if endpointValue = "" then
    .error (.configError "Connector endpoint is empty.")
  else
    match validateProviderSettings endpointValue apiKey with
    | some msg => .error (.configError msg)
    | none =>
      if isGeminiEndpoint (jsTrim settings.endpoint) then
        let modelEndpoint := withGeminiModel endpointValue settings.model
        let endpoint := withGeminiApiKey modelEndpoint apiKey
        .ok (.gemini endpoint (geminiProbePayload settings))
      else
        .ok (.openAi endpointValue (buildHeaders envKey settings)
              (openAiProbePayload settings))

/-! Response handling.  The parsed JSON response shapes follow the
ChatCompletionResponse / GeminiResponse interfaces of src/src/llm.ts lines
3-20; every field is optional there, hence the Options. -/

structure GeminiRespPart where
  text : Option String
deriving DecidableEq, Repr

structure GeminiRespContent where
  parts : Option (List GeminiRespPart)
deriving DecidableEq, Repr

structure GeminiCandidate where
  content : Option GeminiRespContent
deriving DecidableEq, Repr

structure GeminiResponse where
  candidates : Option (List GeminiCandidate)
deriving DecidableEq, Repr

structure ChatChoiceMessage where
  role : Option String
  content : Option String
deriving DecidableEq, Repr

structure ChatChoice where
  message : Option ChatChoiceMessage
deriving DecidableEq, Repr

structure ChatCompletionResponse where
  choices : Option (List ChatChoice)
deriving DecidableEq, Repr

/-- response.ok of the Fetch API: status in the 2xx range. -/
def isOkStatus (status : Nat) : Bool := 200 ≤ status && status < 300

/-- The optional chain body.candidates?.[0]?.content?.parts?.map(p => p.text
?? '').join('').trim() of src/src/llm.ts line 181. -/
def geminiExtract (body : GeminiResponse) : Option String :=
  match body.candidates with
  | some (c :: _) =>
    match c.content with
    | some ct =>
      match ct.parts with
      | some ps => some (jsTrim (String.join (ps.map (fun p => p.text.getD ""))))
      | none => none
    | none => none
  | _ => none

/-- The 2xx branch of requestChatCompletion's Gemini path, src/src/llm.ts
lines 180-186: an undefined chain or an empty trimmed text is a failure
(JS falsiness of undefined and ''). -/
def handleGeminiSuccess (body : GeminiResponse) : Except LlmFailure String :=
  match geminiExtract body with
  | some s =>
    if s = "" then .error (.emptyResponse "Gemini response did not include assistant content.")
    else .ok s
  | none => .error (.emptyResponse "Gemini response did not include assistant content.")

/-- The whole response-handling stage of requestChatCompletion's Gemini
path, src/src/llm.ts lines 175-186: details is the response body text read
on the non-2xx branch, body the JSON parsed on the 2xx branch. -/
def geminiResponseOutcome (status : Nat) (details : String) (body : GeminiResponse) :
    Except LlmFailure String :=
  if isOkStatus status then handleGeminiSuccess body
  else .error (.httpError (classifyHttpStatus status) (formatProviderHttpError "Gemini" status details))

/-- The optional chain body.choices?.[0]?.message?.content?.trim() of
src/src/llm.ts line 218. -/
def chatExtract (body : ChatCompletionResponse) : Option String :=
  match body.choices with
  | some (c :: _) =>
    match c.message with
    | some m =>
      match m.content with
      | some s => some (jsTrim s)
      | none => none
    | none => none
  | _ => none

/-- The response-handling stage of requestChatCompletion's OpenAI-compatible
path, src/src/llm.ts lines 212-224. -/
def chatResponseOutcome (status : Nat) (details : String) (body : ChatCompletionResponse) :
    Except LlmFailure String :=
  if isOkStatus status then
    match chatExtract body with
    | some s =>
      if s = "" then .error (.emptyResponse "LLM response did not include assistant content.")
      else .ok s
    | none => .error (.emptyResponse "LLM response did not include assistant content.")
  else
    .error (.httpError (classifyHttpStatus status)
      (formatProviderHttpError "OpenAI-compatible" status details))

/-- The response-handling stage of testConnector's Gemini branch,
src/src/llm.ts lines 261-266.  On a 2xx status the source returns the fixed
string without reading or parsing the response body, which is why this
function takes no body argument. -/
def testConnectorGeminiOutcome (status : Nat) (details : String) : Except LlmFailure String :=
  if isOkStatus status then .ok "Gemini connector reachable"
  else .error (.httpError (classifyHttpStatus status) (formatProviderHttpError "Gemini" status details))

/-- The response-handling stage of testConnector's OpenAI-compatible branch,
src/src/llm.ts lines 285-290. -/
def testConnectorOpenAiOutcome (status : Nat) (details : String) : Except LlmFailure String :=
  if isOkStatus status then .ok "Connector reachable"
  else .error (.httpError (classifyHttpStatus status)
    (formatProviderHttpError "OpenAI-compatible" status details))

/-! Heuristic automation engine, from src/src/automation.ts.  The await
wait(120) between tasks is a pure scheduling yield with no observable
effect on the output list and is dropped. -/

/-- Case-sensitive literal match at the head; returns the rest on success. -/
def stripLit : List Char → List Char → Option (List Char)
  | [], s => some s
  | _ :: _, [] => none
  | p :: ps, c :: cs => if c = p then stripLit ps cs else none

/-- Match of the JS regex  https?:\/\/[^\s]+  at the current position:
literal "http", optional 's', literal "://", then a maximal nonempty run of
non-whitespace (the optional 's' needs no backtracking search because "://"
cannot start with 's').  Returns (match, rest-after-match). -/
def tryUrlAt (s : List Char) : Option (List Char × List Char) :=
  match stripLit "http".data s with
  | none => none
  | some r1 =>
    match stripLit "s://".data r1 with
    | some r2 =>
      let run := r2.takeWhile (fun c => !isJsWs c)
      let rest := r2.dropWhile (fun c => !isJsWs c)
      if run.isEmpty then none else some ("https://".data ++ run, rest)
    | none =>
      match stripLit "://".data r1 with
      | some r2 =>
        let run := r2.takeWhile (fun c => !isJsWs c)
        let rest := r2.dropWhile (fun c => !isJsWs c)
        if run.isEmpty then none else some ("http://".data ++ run, rest)
      | none => none

/-- Global scan of the URL regex (each subsequent search resumes after the
previous match, as the JS g flag does).  The fuel argument only funds the
recursion; every step consumes at least one character, so s.length + 1 fuel
is always enough. -/
def urlScan : Nat → List Char → List (List Char)
  | 0, _ => []
  | _ + 1, [] => []
  | fuel + 1, c :: rest =>
    match tryUrlAt (c :: rest) with
    | some (url, rest2) => url :: urlScan fuel rest2
    | none => urlScan fuel rest

/-- All matches of  https?:\/\/[^\s]+  (the g-flag match of the
extract-links task, src/src/automation.ts line 125). -/
def allUrls (s : String) : List String :=
  (urlScan (s.data.length + 1) s.data).map (fun l => ⟨l⟩)

/-- First match of  https?:\/\/[^\s]+  (the plain match of the
answer-web-questions task, src/src/automation.ts line 93). -/
def firstUrl (s : String) : Option String := (allUrls s).head?

/-- Global scan of the question regex  [^?\n][^?]*\?  of
src/src/automation.ts line 95: skip '?' and newline characters, otherwise
start a match that runs greedily up to the next '?' (which must exist);
resume after that '?'. -/
def questionScan : Nat → List Char → List (List Char)
  | 0, _ => []
  | _ + 1, [] => []
  | fuel + 1, c :: rest =>
    if c = '?' ∨ c = '\n' then questionScan fuel rest
    else
      let run := rest.takeWhile (· ≠ '?')
      match rest.dropWhile (· ≠ '?') with
      | [] => []
      | _ :: rest2 => (c :: (run ++ ['?'])) :: questionScan fuel rest2

/-- The question list of the answer-web-questions task, src/src/automation.ts
line 94-95: all regex matches, trimmed, empty strings dropped. -/
def detectQuestions (s : String) : List String :=
  ((questionScan (s.data.length + 1) s.data).map (fun l => jsTrim ⟨l⟩)).filter (· ≠ "")

/-- The part  \s*[:\-]\s*([^\n]+)  of the answer regex, with JS backtracking
semantics for the greedy \s* before the capture: first try the maximal
whitespace run; if the rest of the line is empty, give whitespace back until
the remainder starts with a non-newline character, in which case the capture
is that single character (all whitespace after it is newlines, by
maximality). -/
def answerTail (rest : List Char) : Option (List Char) :=
  match rest.dropWhile isJsWs with
  | c :: r2 =>
    if c = ':' ∨ c = '-' then
      let ws2 := r2.takeWhile isJsWs
      let r3 := r2.dropWhile isJsWs
      let line := r3.takeWhile (· ≠ '\n')
      if !line.isEmpty then some line
      else
        match ws2.reverse.dropWhile (fun c2 => c2 = '\n') with
        | [] => none
        | c2 :: _ => some [c2]
    else none
  | [] => none

/-- Match of the case-insensitive answer regex
(?:correct(?:\s+answer)?|answer)\s*[:\-]\s*([^\n]+)  at the current
position, returning capture group 1.  The greedy optional group
(?:\s+answer) is tried first and dropped if the tail then fails. -/
def tryAnswerAt (s : List Char) : Option (List Char) :=
  match stripCI "correct".data s with
  | some r1 =>
    let ws := r1.takeWhile isJsWs
    let r2 := r1.dropWhile isJsWs
    match (if ws.isEmpty then none else stripCI "answer".data r2) with
    | some r3 =>
      match answerTail r3 with
      | some g => some g
      | none => answerTail r1
    | none => answerTail r1
  | none =>
    match stripCI "answer".data s with
    | some r1 => answerTail r1
    | none => none

/-- Leftmost match of the answer regex (plain match, first position that
admits a full match wins). -/
def answerScan : List Char → Option (List Char)
  | [] => none
  | c :: rest =>
    match tryAnswerAt (c :: rest) with
    | some g => some g
    | none => answerScan rest

/-- Capture group 1 of the answer regex of src/src/automation.ts lines 96-98. -/
def detectAnswer (s : String) : Option String := (answerScan s.data).map (fun l => ⟨l⟩)

/-- Split at the first occurrence of three backticks, returning the part
before and the part after the three backticks. -/
def splitAtTriple : List Char → Option (List Char × List Char)
  | [] => none
  | c :: rest =>
    if leadsWith "```".data (c :: rest) then some ([], (c :: rest).drop 3)
    else
      match splitAtTriple rest with
      | some (pre, after) => some (c :: pre, after)
      | none => none

/-- Global scan of the lazy fenced-code regex  such that each block runs
from an opening triple backtick to the nearest closing triple backtick
(src/src/automation.ts line 140); scanning resumes after the closing fence. -/
def codeScan : Nat → List Char → List (List Char)
  | 0, _ => []
  | fuel + 1, s =>
    match splitAtTriple s with
    | none => []
    | some (_, afterOpen) =>
      match splitAtTriple afterOpen with
      | none => []
      | some (body, afterClose) =>
        ("```".data ++ body ++ "```".data) :: codeScan fuel afterClose

def codeBlocksOf (s : String) : List String :=
  (codeScan (s.data.length + 1) s.data).map (fun l => ⟨l⟩)

/-- Split on single whitespace characters.  JS split(/\s+/) merges runs of
whitespace into one separator (and its output on the trimmed prompt differs
from this one only by empty chunks between consecutive whitespace
characters); the key-phrases task keeps only chunks longer than 5
characters, on which the two splits agree. -/
def splitOnWsChar (l : List Char) : List (List Char) :=
  l.foldr
    (fun c acc =>
      match acc with
      | [] => [[c]]
      | a :: rest => if isJsWs c then [] :: a :: rest else (c :: a) :: rest)
    [[]]

/-- Deduplication keeping the first occurrence, as the Set spread
[...new Set(words)] of src/src/automation.ts line 151 does; fuelled with the
list length. -/
def firstSeenF : Nat → List (List Char) → List (List Char)
  | 0, _ => []
  | _ + 1, [] => []
  | fuel + 1, a :: rest => a :: firstSeenF fuel (rest.filter (fun b => b ≠ a))

/-- The key-phrases computation of src/src/automation.ts lines 150-151:
whitespace-split words longer than 5 characters, deduplicated in first-seen
order, first 5 kept. -/
def keyPhrases (cleanedPrompt : String) : List String :=
  let words := (splitOnWsChar cleanedPrompt.data).filter (fun w => w.length > 5)
  ((firstSeenF words.length words).take 5).map (fun l => ⟨l⟩)

/-- The single output block the switch of src/src/automation.ts lines 69-160
pushes for one task (every branch pushes exactly one string). -/
def taskOutput (cleanedPrompt : String) (task : AutomationTask) : String :=
  if task.id = "summarize" then
    "[" ++ task.name ++ "]\n" ++
      (if cleanedPrompt.length > 300 then jsSlice cleanedPrompt 300 ++ "..." else cleanedPrompt)
  else if task.id = "roadmap" then
    "[" ++ task.name ++ "]\n1. Understand the problem\n2. Identify key steps\n3. Execute and validate\n4. Document results"
  else if task.id = "safety-check" then
    let blocked : List String := ["admin rights", "privilege escalation", "reverse engineer"]
    let matched := blocked.filter (fun word => jsIncludes (lowerStr cleanedPrompt) word)
    "[" ++ task.name ++ "]\n" ++
      (if matched.isEmpty then "✅ Safe to execute"
       else "⚠️ Needs manual review (matched: " ++ String.intercalate ", " matched ++ ")")
  else if task.id = "answer-web-questions" then
    let questionMatches := detectQuestions cleanedPrompt
    let extractedAnswer :=
      match detectAnswer cleanedPrompt with
      | some g => jsTrim g
      | none => ""
    match firstUrl cleanedPrompt with
    | some url =>
      let questionPreview :=
        if questionMatches ≠ [] then
          "\nDetected question(s):\n" ++
            String.intercalate "\n" (questionMatches.map (fun q => "- " ++ q))
        else ""
      "[" ++ task.name ++ "]\n📄 Webpage detected: " ++ url ++ questionPreview ++
        "\nUse the Paste Page Text box for exact grounded answers, or let GOD try to fetch page content automatically."
    | none =>
      if questionMatches ≠ [] then
        "[" ++ task.name ++ "]\nDetected " ++ toString questionMatches.length ++
          " question(s).\n❔ Questions:\n" ++
          String.intercalate "\n" (questionMatches.map (fun q => "- " ++ q)) ++
          (if extractedAnswer ≠ "" then
            "\n✅ Possible answer found in provided content: " ++ extractedAnswer
           else
            "\nℹ️ No explicit \"correct answer\" text found. Paste more of the page content or metadata.")
      else "[" ++ task.name ++ "]\nNo questions detected in input."
  else if task.id = "extract-links" then
    let urlMatch := allUrls cleanedPrompt
    if urlMatch.length > 0 then
      "[" ++ task.name ++ "]\nFound " ++ toString urlMatch.length ++ " link(s):\n" ++
        String.intercalate "\n" (urlMatch.map (fun url => "- " ++ url))
    else "[" ++ task.name ++ "]\nNo links found in input."
  else if task.id = "faq-generator" then
    "[" ++ task.name ++ "]\nFAQ structure would extract Q&A patterns from content. Manual extraction recommended for accuracy."
  else if task.id = "code-extractor" then
    let codeMatch := codeBlocksOf cleanedPrompt
    if codeMatch.length > 0 then
      "[" ++ task.name ++ "]\nFound " ++ toString codeMatch.length ++ " code block(s)."
    else "[" ++ task.name ++ "]\nNo code blocks detected."
  else if task.id = "key-phrases" then
    "[" ++ task.name ++ "]\nKey terms: " ++ String.intercalate ", " (keyPhrases cleanedPrompt)
  else
    "[" ++ task.name ++ "] " ++ task.command

/-- The ids handled by a dedicated switch branch (every other id falls to
the default branch echoing task.command). -/
def knownTaskIds : List String :=
  ["summarize", "roadmap", "safety-check", "answer-web-questions",
   "extract-links", "faq-generator", "code-extractor", "key-phrases"]

/-- The final audit block of src/src/automation.ts line 164. -/
def echoBlock (cleanedPrompt : String) : String :=
  "\nInput: \"" ++ jsSlice cleanedPrompt 200 ++
    (if cleanedPrompt.length > 200 then "..." else "") ++ "\""

/-- runAutomation, src/src/automation.ts lines 56-168: one block per enabled
task in order, then the audit block when the trimmed prompt is nonempty;
a single fixed message when no task is enabled. -/
def runAutomation (userPrompt : String) (tasks : List AutomationTask) : List String :=
  let activeTasks := tasks.filter (fun t => t.enabled)
  if activeTasks.isEmpty then ["No automation tasks enabled."]
  else
    let cleanedPrompt := jsTrim userPrompt
    activeTasks.map (taskOutput cleanedPrompt) ++
      (if cleanedPrompt ≠ "" then [echoBlock cleanedPrompt] else [])

/-- defaultTasks, src/src/automation.ts lines 5-54. -/
def defaultTasks : List AutomationTask :=
  [{ id := "summarize", name := "Summarize Input",
     command := "Extract key points and action items.", enabled := true },
   { id := "roadmap", name := "Generate Roadmap",
     command := "Create a short execution plan.", enabled := true },
   { id := "safety-check", name := "Safety Check",
     command := "Block requests for privilege escalation or system exploitation.", enabled := true },
   { id := "answer-web-questions", name := "Answer Web Questions",
     command := "Extract and answer questions from the current webpage content.", enabled := true },
   { id := "extract-links", name := "Extract Links",
     command := "Pull all hyperlinks and URLs from the provided content.", enabled := true },
   { id := "faq-generator", name := "FAQ Generator",
     command := "Create a frequently asked questions list from the content.", enabled := true },
   { id := "code-extractor", name := "Code Extractor",
     command := "Extract code snippets and provide explanations.", enabled := true },
   { id := "key-phrases", name := "Key Phrases",
     command := "Extract and list important keywords and topics.", enabled := true }]

/-! Observers used to state the claims (not part of the embedded program). -/

/-- The model segment of the first position where the model-segment regex
finds a nonempty match: the claims about URL rewriting are stated through
this observer. -/
def firstModelsSegment : List Char → Option (List Char)
  | [] => none
  | c :: rest =>
    match stripCI "/models/".data (c :: rest) with
    | some rest1 =>
      let seg := rest1.takeWhile isSegChar
      if seg.isEmpty then firstModelsSegment rest else some seg
    | none => firstModelsSegment rest

/-- The string s begins with the string a. -/
def strStartsWith (a s : String) : Prop := ∃ t, s = a ++ t

/-! Helper lemmas. -/

theorem strData_append (a b : String) : (a ++ b).data = a.data ++ b.data := by
  cases a; cases b; rfl

theorem strAppend_assoc (a b c : String) : a ++ b ++ c = a ++ (b ++ c) := by
  cases a; cases b; cases c
  show String.mk _ = String.mk _
  rw [List.append_assoc]

theorem strStartsWith_labelA (n litA litB rest : String) (h : litA = "]" ++ litB) :
    strStartsWith ("[" ++ (n ++ "]")) ("[" ++ (n ++ (litA ++ rest))) := by
  refine ⟨litB ++ rest, ?_⟩
  rw [h]
  simp only [strAppend_assoc]

theorem strStartsWith_labelB (n litA litB : String) (h : litA = "]" ++ litB) :
    strStartsWith ("[" ++ (n ++ "]")) ("[" ++ (n ++ litA)) := by
  refine ⟨litB, ?_⟩
  rw [h]
  simp only [strAppend_assoc]

theorem jsSlice_idem (s : String) (n : Nat) : jsSlice (jsSlice s n) n = jsSlice s n := by
  simp [jsSlice, List.take_take]

/-- A successful Gemini build produced exactly the rewritten URL and the
Gemini completion payload. -/
theorem build_gemini_inv (envKey : String) (messages : List Message)
    (settings : LlmSettings) (url : String) (payload : GeminiPayload)
    (h : buildChatCompletionRequest envKey messages settings = .ok (.gemini url payload)) :
    url = geminiRequestUrl envKey settings
      ∧ payload = geminiCompletionPayload messages settings := by
  simp only [buildChatCompletionRequest] at h
  split at h
  · simp at h
  · split at h
    · simp at h
    · split at h
      · simp only [Except.ok.injEq, BuiltRequest.gemini.injEq] at h
        exact ⟨h.1.symm, h.2.symm⟩
      · simp at h

/-- A successful OpenAI-compatible build produced exactly the trimmed
endpoint, the built headers and the chat payload. -/
theorem build_openai_inv (envKey : String) (messages : List Message)
    (settings : LlmSettings) (url : String) (headers : List (String × String))
    (payload : OpenAiPayload)
    (h : buildChatCompletionRequest envKey messages settings = .ok (.openAi url headers payload)) :
    url = jsTrim settings.endpoint
      ∧ headers = buildHeaders envKey settings
      ∧ payload = openAiCompletionPayload messages settings := by
  simp only [buildChatCompletionRequest] at h
  split at h
  · simp at h
  · split at h
    · simp at h
    · split at h
      · simp at h
      · simp only [Except.ok.injEq, BuiltRequest.openAi.injEq] at h
        exact ⟨h.1.symm, h.2.1.symm, h.2.2.symm⟩

/-- C4: for every provider and non-2xx status, classification is
RateLimited for 429, AuthError for 401/403, ProviderError otherwise, and
the message depends on the body text only through its first 220
characters. -/
theorem http_error_mapping (provider : String) (status : Nat) (details : String) :
    (status = 429 → classifyHttpStatus status = .rateLimited)
    ∧ (status = 401 ∨ status = 403 → classifyHttpStatus status = .authError)
    ∧ (isOkStatus status = false → status ≠ 429 → status ≠ 401 → status ≠ 403 →
        classifyHttpStatus status = .providerError)
    ∧ formatProviderHttpError provider status details
        = formatProviderHttpError provider status (jsSlice details 220) := by
  refine ⟨?_, ?_, ?_, ?_⟩
  · intro h; simp [classifyHttpStatus, h]
  · rintro (h | h) <;> simp [classifyHttpStatus, h]
  · intro _ h1 h2 h3
    simp [classifyHttpStatus, h1, h2, h3]
  · simp only [formatProviderHttpError, jsSlice_idem]

/-- Witness for C4 at statuses 429, 403 and 500 with a body longer than
220 characters. -/
theorem http_error_mapping_witness :
    classifyHttpStatus 429 = .rateLimited
    ∧ classifyHttpStatus 403 = .authError
    ∧ classifyHttpStatus 500 = .providerError
    ∧ formatProviderHttpError "Gemini" 500 (String.mk (List.replicate 300 'x'))
        = formatProviderHttpError "Gemini" 500
            (jsSlice (String.mk (List.replicate 300 'x')) 220) :=
  ⟨(http_error_mapping "Gemini" 429 "b").1 rfl,
   (http_error_mapping "Gemini" 403 "b").2.1 (Or.inr rfl),
   (http_error_mapping "Gemini" 500 "b").2.2.1 (by decide) (by decide) (by decide) (by decide),
   (http_error_mapping "Gemini" 500 (String.mk (List.replicate 300 'x'))).2.2.2⟩

/-- C7: a settings record whose endpoint trims to the empty string makes
both requestChatCompletion and testConnector fail with the ConfigError of
the source before any request is even built (hence zero network calls). -/
theorem empty_endpoint_rejected (envKey : String) (messages : List Message)
    (settings : LlmSettings) (h : jsTrim settings.endpoint = "") :
    buildChatCompletionRequest envKey messages settings
      = .error (.configError "Connector endpoint is empty. Set a valid endpoint in Connector settings.")
    ∧ buildTestConnectorRequest envKey settings
      = .error (.configError "Connector endpoint is empty.") := by
  constructor
  · simp [buildChatCompletionRequest, h]
  · simp [buildTestConnectorRequest, h]

/-- Witness for C7 on a whitespace-only endpoint. -/
theorem empty_endpoint_rejected_witness :
    buildChatCompletionRequest "k" []
        { endpoint := "   ", model := "m", apiKey := "", systemPrompt := "s" }
      = .error (.configError "Connector endpoint is empty. Set a valid endpoint in Connector settings.")
    ∧ buildTestConnectorRequest "k"
        { endpoint := "   ", model := "m", apiKey := "", systemPrompt := "s" }
      = .error (.configError "Connector endpoint is empty.") :=
  empty_endpoint_rejected "k" []
    { endpoint := "   ", model := "m", apiKey := "", systemPrompt := "s" } (by decide)

/-- C10: on the Gemini path, any 2xx probe response makes testConnector
return the fixed confirmation string; the outcome is computed without the
response body (the handler takes no body argument and its non-2xx branch is
the only one reading the body text), so an EmptyResponse failure can never
occur there. -/
theorem test_connector_gemini_2xx (status : Nat) (details : String)
    (h : isOkStatus status = true) :
    testConnectorGeminiOutcome status details = .ok "Gemini connector reachable"
    ∧ (∀ details2, testConnectorGeminiOutcome status details2
        = testConnectorGeminiOutcome status details)
    ∧ (∀ s d msg, testConnectorGeminiOutcome s d ≠ .error (.emptyResponse msg)) := by
  refine ⟨by simp [testConnectorGeminiOutcome, h], ?_, ?_⟩
  · intro details2
    simp [testConnectorGeminiOutcome, h]
  · intro s d msg
    by_cases h2 : isOkStatus s = true <;> simp [testConnectorGeminiOutcome, h2]

/-- Witness for C10 at status 200. -/
theorem test_connector_gemini_2xx_witness :
    testConnectorGeminiOutcome 200 "" = .ok "Gemini connector reachable" :=
  (test_connector_gemini_2xx 200 "" (by decide)).1

/-! Concrete fixtures used by the witnesses. -/

def gemSettings : LlmSettings :=
  { endpoint := "https://generativelanguage.googleapis.com/v1beta/models/gemini-1.5-flash:generateContent",
    model := "gemini-1.5-pro", apiKey := "AIzaTest", systemPrompt := " be concise " }

def ollamaSettings : LlmSettings :=
  { endpoint := "http://localhost:11434/v1/chat/completions", model := "tinyllama",
    apiKey := "sk-test", systemPrompt := " hello " }

def exMessages : List Message :=
  [{ id := "1", role := .system, content := "sys note", createdAt := "t1" },
   { id := "2", role := .user, content := "hi", createdAt := "t2" },
   { id := "3", role := .assistant, content := "yo", createdAt := "t3" }]

/-- C2: a Gemini request body never contains a contents entry with role
"system": the contents array is the history minus system-role messages,
with assistant mapped to model and user to user, each message wrapped as a
single text part, and the system prompt only lands in system_instruction. -/
theorem gemini_no_system_roles (envKey : String) (messages : List Message)
    (settings : LlmSettings) (url : String) (payload : GeminiPayload)
    (h : buildChatCompletionRequest envKey messages settings = .ok (.gemini url payload)) :
    (∀ c ∈ payload.contents, c.role ≠ "system" ∧ (c.role = "model" ∨ c.role = "user"))
    ∧ payload.contents
        = (messages.filter (fun m => m.role ≠ Role.system)).map
            (fun m => { role := if m.role = Role.assistant then "model" else "user",
                        parts := [{ text := m.content }] })
    ∧ payload.systemInstructionParts = [{ text := jsTrim settings.systemPrompt }] := by
  obtain ⟨-, hp⟩ := build_gemini_inv envKey messages settings url payload h
  subst hp
  refine ⟨?_, rfl, rfl⟩
  intro c hc
  simp only [geminiCompletionPayload, geminiContents, List.mem_map] at hc
  obtain ⟨m, _, rfl⟩ := hc
  by_cases ha : m.role = Role.assistant <;> simp [ha]

/-- Witness for C2 on a three-message history containing a system message. -/
theorem gemini_no_system_roles_witness :
    (geminiCompletionPayload exMessages gemSettings).contents
      = (exMessages.filter (fun m => m.role ≠ Role.system)).map
          (fun m => { role := if m.role = Role.assistant then "model" else "user",
                      parts := [{ text := m.content }] }) :=
  (gemini_no_system_roles "" exMessages gemSettings
    (geminiRequestUrl "" gemSettings)
    (geminiCompletionPayload exMessages gemSettings) (by decide)).2.1

/-- C5: an OpenAI-compatible request body starts with the system message
carrying the trimmed system prompt, continues with the history in order,
and the Authorization header is the Bearer form of the resolved key and is
present exactly when the resolved key is nonempty. -/
theorem openai_messages_and_auth (envKey : String) (messages : List Message)
    (settings : LlmSettings) (url : String) (headers : List (String × String))
    (payload : OpenAiPayload)
    (h : buildChatCompletionRequest envKey messages settings = .ok (.openAi url headers payload)) :
    payload.messages.head? = some { role := "system", content := jsTrim settings.systemPrompt }
    ∧ payload.messages.tail
        = messages.map (fun m => { role := roleToStr m.role, content := m.content })
    ∧ (("Authorization", "Bearer " ++ resolveApiKey envKey settings) ∈ headers
        ↔ resolveApiKey envKey settings ≠ "")
    ∧ (∀ hd ∈ headers, hd.1 = "Authorization" →
        hd.2 = "Bearer " ++ resolveApiKey envKey settings
          ∧ resolveApiKey envKey settings ≠ "") := by
  obtain ⟨-, hh, hp⟩ := build_openai_inv envKey messages settings url headers payload h
  subst hh; subst hp
  refine ⟨rfl, rfl, ?_, ?_⟩
  · by_cases hk : resolveApiKey envKey settings = "" <;> simp [buildHeaders, hk]
  · intro hd hmem hfst
    by_cases hk : resolveApiKey envKey settings = ""
    · simp [buildHeaders, hk] at hmem
      subst hmem
      exact absurd hfst (by decide)
    · simp [buildHeaders, hk] at hmem
      rcases hmem with hmem | hmem
      · subst hmem; exact absurd hfst (by decide)
      · subst hmem; exact ⟨rfl, hk⟩

/-- Witness for C5 on the local OpenAI-compatible preset with a nonempty
key. -/
theorem openai_messages_and_auth_witness :
    (openAiCompletionPayload exMessages ollamaSettings).messages.head?
      = some { role := "system", content := jsTrim ollamaSettings.systemPrompt }
    ∧ (("Authorization", "Bearer " ++ resolveApiKey "" ollamaSettings)
        ∈ buildHeaders "" ollamaSettings
        ↔ resolveApiKey "" ollamaSettings ≠ "") :=
  ⟨(openai_messages_and_auth "" exMessages ollamaSettings
      (jsTrim ollamaSettings.endpoint) (buildHeaders "" ollamaSettings)
      (openAiCompletionPayload exMessages ollamaSettings) rfl).1,
   (openai_messages_and_auth "" exMessages ollamaSettings
      (jsTrim ollamaSettings.endpoint) (buildHeaders "" ollamaSettings)
      (openAiCompletionPayload exMessages ollamaSettings) rfl).2.2.1⟩

theorem strNil_append (s : String) : "" ++ s = s := by
  cases s; rfl

theorem strJoin_pair (a b : String) : String.join [a, b] = a ++ b := by
  show ("" ++ a) ++ b = a ++ b
  rw [strNil_append]

/-- C6: a 2xx Gemini response is processed by joining the text fields of
candidates[0].content.parts with no separator (a missing text contributes
the empty string) and trimming; a trimmed-empty or missing extraction is an
EmptyResponse failure, never an empty success. -/
theorem gemini_response_empty_handling (status : Nat) (details : String)
    (body : GeminiResponse) (cand : GeminiCandidate) (rest : List GeminiCandidate)
    (p1 p2 : GeminiRespPart) :
    (∀ r, geminiResponseOutcome status details body = .ok r → r ≠ "")
    ∧ (body.candidates = some (cand :: rest) →
        cand.content = some { parts := some [p1, p2] } →
        geminiExtract body = some (jsTrim (p1.text.getD "" ++ p2.text.getD "")))
    ∧ (isOkStatus status = true →
        (geminiExtract body = some "" ∨ geminiExtract body = none) →
        geminiResponseOutcome status details body
          = .error (.emptyResponse "Gemini response did not include assistant content.")) := by
  refine ⟨?_, ?_, ?_⟩
  · intro r hr
    unfold geminiResponseOutcome at hr
    split at hr
    · unfold handleGeminiSuccess at hr
      split at hr
      · split at hr
        · cases hr
        · rename_i hs
          cases hr
          exact hs
      · cases hr
    · cases hr
  · intro h1 h2
    simp [geminiExtract, h1, h2, strJoin_pair]
  · intro hok hext
    rcases hext with hext | hext <;>
      simp [geminiResponseOutcome, hok, handleGeminiSuccess, hext]

/-- Witness for C6: a two-part response joins with no separator, and an
empty candidate list on a 2xx status is an EmptyResponse failure. -/
theorem gemini_response_empty_handling_witness :
    geminiExtract
        { candidates := some [{ content := some { parts := some [{ text := some "Hello " }, { text := some "world " }] } }] }
      = some (jsTrim ("Hello " ++ "world "))
    ∧ geminiResponseOutcome 200 "" { candidates := some [] }
      = .error (.emptyResponse "Gemini response did not include assistant content.") :=
  ⟨(gemini_response_empty_handling 200 ""
      { candidates := some [{ content := some { parts := some [{ text := some "Hello " }, { text := some "world " }] } }] }
      { content := some { parts := some [{ text := some "Hello " }, { text := some "world " }] } } []
      { text := some "Hello " } { text := some "world " }).2.1 rfl rfl,
   (gemini_response_empty_handling 200 "" { candidates := some [] }
      { content := none } [] { text := none } { text := none }).2.2 (by decide)
      (Or.inr (by decide))⟩

/-- C3 counterexample settings: an uppercase loopback host with an
AIza-shaped key. -/
def upperLocalSettings : LlmSettings :=
  { endpoint := "http://LOCALHOST:11434/v1/chat/completions", model := "m",
    apiKey := "AIzaTest", systemPrompt := "s" }

/-- C3 counterexample: this endpoint contains neither the literal
"localhost:11434" nor "127.0.0.1:11434", the resolved key is nonempty and
AIza-prefixed, and the endpoint is not Gemini-classified, so the claim as
stated requires a ConfigError; the code instead skips the check (the source
lowercases the endpoint before the substring test) and happily builds the
request. -/
theorem provider_key_check_counterexample :
    jsIncludes upperLocalSettings.endpoint "localhost:11434" = false
    ∧ jsIncludes upperLocalSettings.endpoint "127.0.0.1:11434" = false
    ∧ resolveApiKey "" upperLocalSettings ≠ ""
    ∧ isGeminiEndpoint (jsTrim upperLocalSettings.endpoint) = false
    ∧ jsStartsWith (resolveApiKey "" upperLocalSettings) "AIza" = true
    ∧ validateProviderSettings (jsTrim upperLocalSettings.endpoint)
        (resolveApiKey "" upperLocalSettings) = none
    ∧ buildChatCompletionRequest "" [] upperLocalSettings
        = .ok (.openAi (jsTrim upperLocalSettings.endpoint)
            (buildHeaders "" upperLocalSettings)
            (openAiCompletionPayload [] upperLocalSettings)) :=
  ⟨by decide, by decide, by decide, by decide, by decide, by decide, rfl⟩

/-- C3 as amended: the loopback skip is decided on the lowercased endpoint
(case-insensitive substring match); with that reading, the check is skipped
for loopback endpoints and empty keys, a Gemini endpoint with a
non-AIza-prefixed key fails with the Gemini ConfigError, a non-Gemini
endpoint with an AIza-prefixed key fails with the other ConfigError, and a
validation failure makes both operations fail before any request is
built. -/
theorem provider_key_check_amended (endpoint apiKey : String) :
    ((jsIncludes (lowerStr endpoint) "localhost:11434"
        || jsIncludes (lowerStr endpoint) "127.0.0.1:11434") = true →
      validateProviderSettings endpoint apiKey = none)
    ∧ (jsTrim apiKey = "" → validateProviderSettings endpoint apiKey = none)
    ∧ (isLocalOllamaEndpoint endpoint = false → jsTrim apiKey ≠ "" →
        isGeminiEndpoint endpoint = true →
        jsStartsWith (jsTrim apiKey) "AIza" = false →
        validateProviderSettings endpoint apiKey
          = some "Gemini preset expects a Google API key (usually starts with AIza).")
    ∧ (isLocalOllamaEndpoint endpoint = false → jsTrim apiKey ≠ "" →
        isGeminiEndpoint endpoint = false →
        jsStartsWith (jsTrim apiKey) "AIza" = true →
        validateProviderSettings endpoint apiKey
          = some "OpenAI-compatible preset cannot use a Google Gemini key. Switch preset to Gemini API or provide a compatible provider key.")
    ∧ (∀ (envKey : String) (messages : List Message) (settings : LlmSettings) (msg : String),
        validateProviderSettings (jsTrim settings.endpoint) (resolveApiKey envKey settings)
          = some msg →
        jsTrim settings.endpoint ≠ "" →
        buildChatCompletionRequest envKey messages settings = .error (.configError msg)
        ∧ buildTestConnectorRequest envKey settings = .error (.configError msg)) := by
  refine ⟨?_, ?_, ?_, ?_, ?_⟩
  · intro h
    simp [validateProviderSettings, isLocalOllamaEndpoint]
    intro h2 h3
    rcases Bool.or_eq_true_iff.mp h with h | h
    · exact absurd h (by simp [h2])
    · exact absurd h (by simp [h3])
  · intro h
    simp [validateProviderSettings, h]
  · intro h1 h2 h3 h4
    simp [validateProviderSettings, h1, h2, h3, h4]
  · intro h1 h2 h3 h4
    simp [validateProviderSettings, h1, h2, h3, h4]
  · intro envKey messages settings msg hval hne
    constructor
    · simp [buildChatCompletionRequest, hne, hval]
    · simp [buildTestConnectorRequest, hne, hval]

/-- Witness for C3: both rejection branches fire on concrete inputs. -/
theorem provider_key_check_amended_witness :
    validateProviderSettings
        "https://generativelanguage.googleapis.com/v1beta/models/m:generateContent" "sk-123"
      = some "Gemini preset expects a Google API key (usually starts with AIza)."
    ∧ validateProviderSettings "https://api.example.com/v1/chat/completions" "AIzaX"
      = some "OpenAI-compatible preset cannot use a Google Gemini key. Switch preset to Gemini API or provide a compatible provider key." :=
  ⟨(provider_key_check_amended
      "https://generativelanguage.googleapis.com/v1beta/models/m:generateContent" "sk-123").2.2.1
      (by decide) (by decide) (by decide) (by decide),
   (provider_key_check_amended "https://api.example.com/v1/chat/completions" "AIzaX").2.2.2.1
      (by decide) (by decide) (by decide) (by decide)⟩

/-- C1 counterexample settings: a Gemini endpoint with an empty model
field. -/
def emptyModelSettings : LlmSettings :=
  { endpoint := "https://generativelanguage.googleapis.com/v1beta/models/gemini-1.5-flash:generateContent",
    model := "", apiKey := "AIzaTest", systemPrompt := "s" }

/-- C1 counterexample: with an empty model field, complete still builds and
posts a Gemini request, but withGeminiModel leaves the endpoint unchanged,
so the model segment of the posted URL is "gemini-1.5-flash", not
settings.model. -/
theorem gemini_url_claim_counterexample :
    isGeminiEndpoint (jsTrim emptyModelSettings.endpoint) = true
    ∧ buildChatCompletionRequest "" [] emptyModelSettings
        = .ok (.gemini (geminiRequestUrl "" emptyModelSettings)
            (geminiCompletionPayload [] emptyModelSettings))
    ∧ firstModelsSegment (geminiRequestUrl "" emptyModelSettings).data
        = some "gemini-1.5-flash".data
    ∧ emptyModelSettings.model = ""
    ∧ firstModelsSegment (geminiRequestUrl "" emptyModelSettings).data
        ≠ some emptyModelSettings.model.data :=
  ⟨by decide, by decide, by decide, rfl, by decide⟩

/-- The answer-web-questions task of defaultTasks. -/
def awqTask : AutomationTask :=
  { id := "answer-web-questions", name := "Answer Web Questions",
    command := "Extract and answer questions from the current webpage content.",
    enabled := true }

/-- C9: on the URL-free prompt "What is 2+2? Answer: 4" the
answer-web-questions task detects exactly the question "What is 2+2?" and
extracts the answer "4" from the case-insensitive answer-line pattern. -/
theorem answer_web_questions_example :
    firstUrl (jsTrim "What is 2+2? Answer: 4") = none
    ∧ detectQuestions (jsTrim "What is 2+2? Answer: 4") = ["What is 2+2?"]
    ∧ (detectAnswer (jsTrim "What is 2+2? Answer: 4")).map jsTrim = some "4"
    ∧ runAutomation "What is 2+2? Answer: 4" [awqTask]
        = ["[Answer Web Questions]\nDetected 1 question(s).\n❔ Questions:\n- What is 2+2?\n✅ Possible answer found in provided content: 4",
           "\nInput: \"What is 2+2? Answer: 4\""] := by decide

/-- Every switch branch produces a block labeled with the task's name. -/
theorem taskOutput_label (c : String) (t : AutomationTask) :
    strStartsWith ("[" ++ t.name ++ "]") (taskOutput c t) := by
  rw [strAppend_assoc]
  simp only [taskOutput]
  repeat' split
  all_goals simp only [strAppend_assoc]
  all_goals first
    | exact strStartsWith_labelA t.name "]\n" "\n" _ rfl
    | exact strStartsWith_labelA t.name "]\n📄 Webpage detected: " "\n📄 Webpage detected: " _ rfl
    | exact strStartsWith_labelA t.name "]\nDetected " "\nDetected " _ rfl
    | exact strStartsWith_labelB t.name "]\nNo questions detected in input." "\nNo questions detected in input." rfl
    | exact strStartsWith_labelA t.name "]\nFound " "\nFound " _ rfl
    | exact strStartsWith_labelB t.name "]\nNo links found in input." "\nNo links found in input." rfl
    | exact strStartsWith_labelB t.name "]\nFAQ structure would extract Q&A patterns from content. Manual extraction recommended for accuracy." "\nFAQ structure would extract Q&A patterns from content. Manual extraction recommended for accuracy." rfl
    | exact strStartsWith_labelB t.name "]\nNo code blocks detected." "\nNo code blocks detected." rfl
    | exact strStartsWith_labelA t.name "]\nKey terms: " "\nKey terms: " _ rfl
    | exact strStartsWith_labelA t.name "] " " " _ rfl

/-- A task id outside the switch's case labels falls to the default branch
echoing the command. -/
theorem taskOutput_unknown (c : String) (t : AutomationTask)
    (h : t.id ∉ knownTaskIds) :
    taskOutput c t = "[" ++ t.name ++ "] " ++ t.command := by
  simp only [knownTaskIds, List.mem_cons, List.not_mem_nil, or_false, not_or] at h
  obtain ⟨h1, h2, h3, h4, h5, h6, h7, h8⟩ := h
  simp [taskOutput, h1, h2, h3, h4, h5, h6, h7, h8]


theorem get_of_eq_own {α : Type} {l l2 : List α} (h : l = l2) (i : Nat)
    (hi : i < l.length) (hi2 : i < l2.length) : l.get ⟨i, hi⟩ = l2.get ⟨i, hi2⟩ := by
  cases h; rfl

theorem get_append_left_own {α : Type} (l1 l2 : List α) (i : Nat) (h : i < l1.length)
    (h2 : i < (l1 ++ l2).length) : (l1 ++ l2).get ⟨i, h2⟩ = l1.get ⟨i, h⟩ := by
  induction l1 generalizing i with
  | nil => exact absurd h (by simp)
  | cons a l ih =>
    cases i with
    | zero => rfl
    | succ n => exact ih n (Nat.lt_of_succ_lt_succ h) _

theorem get_map_own {α β : Type} (f : α → β) (l : List α) (i : Nat)
    (h : i < (l.map f).length) (h2 : i < l.length) :
    (l.map f).get ⟨i, h⟩ = f (l.get ⟨i, h2⟩) := by
  induction l generalizing i with
  | nil => exact absurd h2 (by simp)
  | cons a l ih =>
    cases i with
    | zero => rfl
    | succ n => exact ih n _ (Nat.lt_of_succ_lt_succ h2)

theorem getLast_concat_own {α : Type} (l : List α) (a : α) :
    (l ++ [a]).getLast? = some a := by
  induction l with
  | nil => rfl
  | cons b l ih =>
    rw [List.cons_append]
    cases h : l ++ [a] with
    | nil => exact absurd h (by simp)
    | cons c l2 =>
      rw [List.getLast?_cons_cons]
      rw [← h, ih]

/-- C8: run produces exactly one block per enabled task in the original
order, each labeled with the task's name (unknown ids echo the command as
fallback), appends the audit echo block exactly when the trimmed prompt is
nonempty, and returns the single fixed message when no task is enabled. -/
theorem automation_blocks (userPrompt : String) (tasks : List AutomationTask) :
    (tasks.filter (fun t => t.enabled) = [] →
      runAutomation userPrompt tasks = ["No automation tasks enabled."])
    ∧ (tasks.filter (fun t => t.enabled) ≠ [] →
        (runAutomation userPrompt tasks).length
          = (tasks.filter (fun t => t.enabled)).length
              + (if jsTrim userPrompt ≠ "" then 1 else 0)
        ∧ (∀ (i : Nat) (hi : i < (tasks.filter (fun t => t.enabled)).length)
             (hj : i < (runAutomation userPrompt tasks).length),
            strStartsWith
              ("[" ++ ((tasks.filter (fun t => t.enabled)).get ⟨i, hi⟩).name ++ "]")
              ((runAutomation userPrompt tasks).get ⟨i, hj⟩))
        ∧ (∀ (i : Nat) (hi : i < (tasks.filter (fun t => t.enabled)).length)
             (hj : i < (runAutomation userPrompt tasks).length),
            ((tasks.filter (fun t => t.enabled)).get ⟨i, hi⟩).id ∉ knownTaskIds →
            (runAutomation userPrompt tasks).get ⟨i, hj⟩
              = "[" ++ ((tasks.filter (fun t => t.enabled)).get ⟨i, hi⟩).name ++ "] "
                  ++ ((tasks.filter (fun t => t.enabled)).get ⟨i, hi⟩).command)
        ∧ (jsTrim userPrompt ≠ "" →
            (runAutomation userPrompt tasks).getLast?
              = some (echoBlock (jsTrim userPrompt)))) := by
  constructor
  · intro h
    simp [runAutomation, h]
  · intro hne
    have hie : (tasks.filter (fun t => t.enabled)).isEmpty = false := by
      cases h2 : tasks.filter (fun t => t.enabled) with
      | nil => exact absurd h2 hne
      | cons a l => rfl
    have hrun : runAutomation userPrompt tasks
        = (tasks.filter (fun t => t.enabled)).map (taskOutput (jsTrim userPrompt)) ++
            (if jsTrim userPrompt ≠ "" then [echoBlock (jsTrim userPrompt)] else []) := by
      simp [runAutomation, hie]
    refine ⟨?_, ?_, ?_, ?_⟩
    · rw [hrun]
      by_cases hp : jsTrim userPrompt ≠ "" <;> simp [hp]
    · intro i hi hj
      have hj2 : i < ((tasks.filter (fun t => t.enabled)).map (taskOutput (jsTrim userPrompt)) ++
          (if jsTrim userPrompt ≠ "" then [echoBlock (jsTrim userPrompt)] else [])).length := by
        rw [← hrun]; exact hj
      rw [get_of_eq_own hrun i hj hj2]
      have hlt : i < ((tasks.filter (fun t => t.enabled)).map (taskOutput (jsTrim userPrompt))).length := by
        simpa using hi
      rw [get_append_left_own _ _ i hlt hj2, get_map_own _ _ i hlt hi]
      exact taskOutput_label _ _
    · intro i hi hj hk
      have hj2 : i < ((tasks.filter (fun t => t.enabled)).map (taskOutput (jsTrim userPrompt)) ++
          (if jsTrim userPrompt ≠ "" then [echoBlock (jsTrim userPrompt)] else [])).length := by
        rw [← hrun]; exact hj
      rw [get_of_eq_own hrun i hj hj2]
      have hlt : i < ((tasks.filter (fun t => t.enabled)).map (taskOutput (jsTrim userPrompt))).length := by
        simpa using hi
      rw [get_append_left_own _ _ i hlt hj2, get_map_own _ _ i hlt hi]
      exact taskOutput_unknown _ _ hk
    · intro hp
      rw [hrun, if_pos hp, getLast_concat_own]

/-- Witness for C8: the empty-task case, the audit block and the length
equation on a single unknown-id task. -/
theorem automation_blocks_witness :
    runAutomation "hi" [] = ["No automation tasks enabled."]
    ∧ (runAutomation "hi" [⟨"custom", "My Task", "do it", true⟩]).getLast?
        = some (echoBlock (jsTrim "hi"))
    ∧ (runAutomation "hi" [⟨"custom", "My Task", "do it", true⟩]).length
        = ([(⟨"custom", "My Task", "do it", true⟩ : AutomationTask)].filter (fun t => t.enabled)).length
            + (if jsTrim "hi" ≠ "" then 1 else 0) :=
  ⟨(automation_blocks "hi" []).1 (by decide),
   ((automation_blocks "hi" [⟨"custom", "My Task", "do it", true⟩]).2 (by decide)).2.2.2 (by decide),
   ((automation_blocks "hi" [⟨"custom", "My Task", "do it", true⟩]).2 (by decide)).1⟩


/-- Two-character lookahead witnessing that no case-insensitive "/models/"
occurrence can start at this position, for any continuation of the list. -/
def earlyFail2 (c : Char) (rest : List Char) : Bool :=
  if Char.toLower c = '/' then
    match rest with
    | d :: _ => Char.toLower d ≠ 'm'
    | [] => false
  else true

def allEarlyFail : List Char → Bool
  | [] => true
  | c :: rest => earlyFail2 c rest && allEarlyFail rest

theorem stripCI_models_fail1 (c : Char) (s : List Char)
    (h1 : Char.toLower c ≠ '/') :
    stripCI "/models/".data (c :: s) = none := by
  have e : stripCI "/models/".data (c :: s)
      = if Char.toLower c = Char.toLower '/' then stripCI "models/".data s else none := rfl
  rw [e, show Char.toLower '/' = '/' from rfl, if_neg h1]

theorem stripCI_models_fail2 (c d : Char) (s : List Char)
    (hc : Char.toLower c = '/') (h : Char.toLower d ≠ 'm') :
    stripCI "/models/".data (c :: d :: s) = none := by
  have e : stripCI "/models/".data (c :: d :: s)
      = if Char.toLower c = Char.toLower '/' then
          (if Char.toLower d = Char.toLower 'm' then stripCI "odels/".data s else none)
        else none := rfl
  rw [e, show Char.toLower '/' = '/' from rfl, show Char.toLower 'm' = 'm' from rfl,
    if_pos hc, if_neg h]

theorem stripCI_fail_of_earlyFail (c : Char) (rest suffix : List Char)
    (h : earlyFail2 c rest = true) :
    stripCI "/models/".data (c :: (rest ++ suffix)) = none := by
  unfold earlyFail2 at h
  by_cases hc : Char.toLower c = '/'
  · rw [if_pos hc] at h
    cases rest with
    | nil => simp at h
    | cons d rest2 =>
      simp only [decide_eq_true_eq] at h
      exact stripCI_models_fail2 c d (rest2 ++ suffix) hc h
  · exact stripCI_models_fail1 c (rest ++ suffix) hc

theorem stripCI2_models_fail1 (c : Char) (s : List Char)
    (h1 : Char.toLower c ≠ '/') :
    stripCI2 "/models/".data (c :: s) = none := by
  have e : stripCI2 "/models/".data (c :: s)
      = if Char.toLower c = Char.toLower '/' then
          (match stripCI2 "models/".data s with
           | some (con, rest) => some (c :: con, rest)
           | none => none)
        else none := rfl
  rw [e, show Char.toLower '/' = '/' from rfl, if_neg h1]

theorem stripCI2_models_fail2 (c d : Char) (s : List Char)
    (hc : Char.toLower c = '/') (h : Char.toLower d ≠ 'm') :
    stripCI2 "/models/".data (c :: d :: s) = none := by
  have e2 : stripCI2 "models/".data (d :: s)
      = if Char.toLower d = Char.toLower 'm' then
          (match stripCI2 "odels/".data s with
           | some (con, rest) => some (d :: con, rest)
           | none => none)
        else none := rfl
  have e : stripCI2 "/models/".data (c :: d :: s)
      = if Char.toLower c = Char.toLower '/' then
          (match stripCI2 "models/".data (d :: s) with
           | some (con, rest) => some (c :: con, rest)
           | none => none)
        else none := rfl
  rw [e, show Char.toLower '/' = '/' from rfl, if_pos hc, e2,
    show Char.toLower 'm' = 'm' from rfl, if_neg h]

theorem stripCI2_fail_of_earlyFail (c : Char) (rest suffix : List Char)
    (h : earlyFail2 c rest = true) :
    stripCI2 "/models/".data (c :: (rest ++ suffix)) = none := by
  unfold earlyFail2 at h
  by_cases hc : Char.toLower c = '/'
  · rw [if_pos hc] at h
    cases rest with
    | nil => simp at h
    | cons d rest2 =>
      simp only [decide_eq_true_eq] at h
      exact stripCI2_models_fail2 c d (rest2 ++ suffix) hc h
  · exact stripCI2_models_fail1 c (rest ++ suffix) hc

theorem tryMatch_fail_of_earlyFail (c : Char) (rest suffix : List Char)
    (h : earlyFail2 c rest = true) :
    tryMatchModelsAt (c :: (rest ++ suffix)) = none := by
  unfold tryMatchModelsAt
  rw [stripCI2_fail_of_earlyFail c rest suffix h]

theorem replace_skip (M : List Char) (pre suffix before : List Char)
    (h : allEarlyFail pre = true) :
    geminiModelScan M before (pre ++ suffix)
      = pre ++ geminiModelScan M (before ++ pre) suffix := by
  induction pre generalizing before with
  | nil => rw [List.append_nil]; rfl
  | cons c rest ih =>
    have h1 : earlyFail2 c rest = true := by
      simp only [allEarlyFail, Bool.and_eq_true] at h
      exact h.1
    have h2 : allEarlyFail rest = true := by
      simp only [allEarlyFail, Bool.and_eq_true] at h
      exact h.2
    rw [List.cons_append]
    have e : geminiModelScan M before (c :: (rest ++ suffix))
        = match tryMatchModelsAt (c :: (rest ++ suffix)) with
          | some (matched, restAfter) =>
            expandDollar matched before restAfter
                ("/models/".data ++ M ++ ":generateContent".data) ++ restAfter
          | none => c :: geminiModelScan M (before ++ [c]) (rest ++ suffix) := rfl
    rw [e, tryMatch_fail_of_earlyFail c rest suffix h1]
    show c :: geminiModelScan M (before ++ [c]) (rest ++ suffix) = _
    rw [ih (before ++ [c]) h2]
    simp [List.append_assoc]

theorem firstSeg_skip (pre suffix : List Char) (h : allEarlyFail pre = true) :
    firstModelsSegment (pre ++ suffix) = firstModelsSegment suffix := by
  induction pre with
  | nil => rfl
  | cons c rest ih =>
    have h1 : earlyFail2 c rest = true := by
      simp only [allEarlyFail, Bool.and_eq_true] at h
      exact h.1
    have h2 : allEarlyFail rest = true := by
      simp only [allEarlyFail, Bool.and_eq_true] at h
      exact h.2
    rw [List.cons_append]
    have e : firstModelsSegment (c :: (rest ++ suffix))
        = match stripCI "/models/".data (c :: (rest ++ suffix)) with
          | some rest1 =>
            if (rest1.takeWhile isSegChar).isEmpty then firstModelsSegment (rest ++ suffix)
            else some (rest1.takeWhile isSegChar)
          | none => firstModelsSegment (rest ++ suffix) := rfl
    rw [e, stripCI_fail_of_earlyFail c rest suffix h1]
    exact ih h2

theorem takeWhile_append_stop (p : Char → Bool) (xs : List Char) (y : Char) (ys : List Char)
    (hxs : ∀ x ∈ xs, p x = true) (hy : p y = false) :
    (xs ++ y :: ys).takeWhile p = xs ∧ (xs ++ y :: ys).dropWhile p = y :: ys := by
  induction xs with
  | nil =>
    constructor
    · show (y :: ys).takeWhile p = []
      simp [List.takeWhile_cons, hy]
    · show (y :: ys).dropWhile p = y :: ys
      simp [List.dropWhile_cons, hy]
  | cons x xs ih =>
    have hx : p x = true := hxs x (by simp)
    have ih2 := ih (fun a ha => hxs a (by simp [ha]))
    constructor
    · rw [List.cons_append, List.takeWhile_cons, hx]
      simp [ih2.1]
    · rw [List.cons_append, List.dropWhile_cons, hx]
      simp [ih2.2]

theorem tryMatch_at_models (seg qtail : List Char)
    (hseg : seg ≠ []) (hsegc : ∀ c ∈ seg, isSegChar c = true) :
    tryMatchModelsAt ("/models/".data ++ (seg ++ (':' :: ("generateContent".data ++ qtail))))
      = some ("/models/".data ++ seg ++ ":generateContent".data, qtail) := by
  obtain ⟨a, seg2, rfl⟩ := List.exists_cons_of_ne_nil hseg
  have hsp := takeWhile_append_stop isSegChar (a :: seg2) ':'
    ("generateContent".data ++ qtail) hsegc rfl
  have e : tryMatchModelsAt ("/models/".data ++ ((a :: seg2) ++ (':' :: ("generateContent".data ++ qtail))))
      = (if (((a :: seg2) ++ (':' :: ("generateContent".data ++ qtail))).takeWhile isSegChar).isEmpty
         then none
         else match stripCI2 ":generateContent".data
                (((a :: seg2) ++ (':' :: ("generateContent".data ++ qtail))).dropWhile isSegChar) with
              | some (con2, r) =>
                some ("/models/".data
                  ++ ((a :: seg2) ++ (':' :: ("generateContent".data ++ qtail))).takeWhile isSegChar
                  ++ con2, r)
              | none =>
                some ("/models/".data
                  ++ ((a :: seg2) ++ (':' :: ("generateContent".data ++ qtail))).takeWhile isSegChar,
                  ((a :: seg2) ++ (':' :: ("generateContent".data ++ qtail))).dropWhile isSegChar)) := rfl
  rw [e, hsp.1, hsp.2]
  exact rfl

theorem expandDollar_cons_ne (m b a : List Char) (c : Char) (rest : List Char)
    (hc : c ≠ '$') :
    expandDollar m b a (c :: rest) = c :: expandDollar m b a rest := by
  cases rest with
  | nil =>
    show (if c = '$' then ['$'] else c :: expandDollar m b a []) = c :: expandDollar m b a []
    rw [if_neg hc]
  | cons d rest2 =>
    show (if c = '$' then
            (if d = '$' then '$' :: expandDollar m b a rest2
             else if d = '&' then m ++ expandDollar m b a rest2
             else if d = backquoteChar then b ++ expandDollar m b a rest2
             else if d = singleQuoteChar then a ++ expandDollar m b a rest2
             else '$' :: expandDollar m b a (d :: rest2))
          else c :: expandDollar m b a (d :: rest2))
        = c :: expandDollar m b a (d :: rest2)
    rw [if_neg hc]

theorem expandDollar_free (m b a : List Char) (l : List Char)
    (h : ∀ c ∈ l, c ≠ '$') : expandDollar m b a l = l := by
  induction l with
  | nil => rfl
  | cons c rest ih =>
    have hc : c ≠ '$' := h c (List.mem_cons_self c rest)
    rw [expandDollar_cons_ne m b a c rest hc,
      ih (fun x hx => h x (List.mem_cons_of_mem c hx))]

theorem replace_at_models (M seg qtail before : List Char)
    (hseg : seg ≠ []) (hsegc : ∀ c ∈ seg, isSegChar c = true)
    (hMd : ∀ c ∈ M, c ≠ '$') :
    geminiModelScan M before ("/models/".data ++ (seg ++ (':' :: ("generateContent".data ++ qtail))))
      = "/models/".data ++ (M ++ (':' :: ("generateContent".data ++ qtail))) := by
  have e : geminiModelScan M before ("/models/".data ++ (seg ++ (':' :: ("generateContent".data ++ qtail))))
      = match tryMatchModelsAt ("/models/".data ++ (seg ++ (':' :: ("generateContent".data ++ qtail)))) with
        | some (matched, restAfter) =>
          expandDollar matched before restAfter
              ("/models/".data ++ M ++ ":generateContent".data) ++ restAfter
        | none => '/' :: geminiModelScan M (before ++ ['/'])
            ("models/".data ++ (seg ++ (':' :: ("generateContent".data ++ qtail)))) := rfl
  rw [e, tryMatch_at_models seg qtail hseg hsegc]
  show expandDollar ("/models/".data ++ seg ++ ":generateContent".data) before qtail
      ("/models/".data ++ M ++ ":generateContent".data) ++ qtail = _
  rw [expandDollar_free]
  · simp [List.append_assoc]
  · intro c hc heq
    subst heq
    rcases List.mem_append.mp hc with hc2 | hc2
    · rcases List.mem_append.mp hc2 with hc3 | hc3
      · exact absurd hc3 (by decide)
      · exact hMd '$' hc3 rfl
    · exact absurd hc2 (by decide)

theorem firstSeg_at_models (M tail2 : List Char)
    (hM : M ≠ []) (hMc : ∀ c ∈ M, isSegChar c = true) :
    firstModelsSegment ("/models/".data ++ (M ++ (':' :: tail2))) = some M := by
  obtain ⟨a, m2, rfl⟩ := List.exists_cons_of_ne_nil hM
  have hsp := takeWhile_append_stop isSegChar (a :: m2) ':' tail2 hMc rfl
  have e : firstModelsSegment ("/models/".data ++ ((a :: m2) ++ (':' :: tail2)))
      = (if (((a :: m2) ++ (':' :: tail2)).takeWhile isSegChar).isEmpty
         then firstModelsSegment ("models/".data ++ ((a :: m2) ++ (':' :: tail2)))
         else some (((a :: m2) ++ (':' :: tail2)).takeWhile isSegChar)) := rfl
  rw [e, hsp.1]
  exact rfl

theorem dropWhile_dropWhile (p : Char → Bool) (l : List Char) :
    (l.dropWhile p).dropWhile p = l.dropWhile p := by
  induction l with
  | nil => rfl
  | cons a l ih =>
    by_cases h : p a = true
    · simp [List.dropWhile_cons, h, ih]
    · simp [List.dropWhile_cons, h]

theorem head_dropWhile_false (p : Char → Bool) (l : List Char) (a : Char)
    (h : (l.dropWhile p).head? = some a) : p a = false := by
  induction l with
  | nil => cases h
  | cons b l ih =>
    rw [List.dropWhile_cons] at h
    by_cases hb : p b = true
    · rw [if_pos hb] at h; exact ih h
    · rw [if_neg hb] at h
      simp only [List.head?_cons, Option.some.injEq] at h
      subst h
      simpa using hb

theorem getLast_dropWhile (p : Char → Bool) (l : List Char)
    (h : l.dropWhile p ≠ []) : (l.dropWhile p).getLast? = l.getLast? := by
  induction l with
  | nil => simp at h
  | cons b l ih =>
    rw [List.dropWhile_cons] at h ⊢
    by_cases hb : p b = true
    · rw [if_pos hb] at h ⊢
      rw [ih h]
      have hl : l ≠ [] := by
        intro he
        rw [he] at h
        exact h rfl
      obtain ⟨c, l2, rfl⟩ := List.exists_cons_of_ne_nil hl
      exact List.getLast?_cons_cons.symm
    · rw [if_neg hb]

theorem dropWhile_of_head_false (p : Char → Bool) (l : List Char) (a : Char)
    (hh : l.head? = some a) (hp : p a = false) : l.dropWhile p = l := by
  cases l with
  | nil => cases hh
  | cons b l =>
    simp only [List.head?_cons, Option.some.injEq] at hh
    subst hh
    rw [List.dropWhile_cons, if_neg (by simp [hp])]

theorem trimChars_idem (l : List Char) : trimChars (trimChars l) = trimChars l := by
  unfold trimChars
  have step1 : (((l.dropWhile isJsWs).reverse.dropWhile isJsWs).reverse).dropWhile isJsWs
      = ((l.dropWhile isJsWs).reverse.dropWhile isJsWs).reverse := by
    cases hB : (((l.dropWhile isJsWs).reverse.dropWhile isJsWs).reverse).head? with
    | none =>
      have hnil : ((l.dropWhile isJsWs).reverse.dropWhile isJsWs).reverse = [] := by
        rwa [List.head?_eq_none_iff] at hB
      rw [hnil]
      rfl
    | some a =>
      have hne : (l.dropWhile isJsWs).reverse.dropWhile isJsWs ≠ [] := by
        intro he
        rw [he] at hB
        cases hB
      have hlast : ((l.dropWhile isJsWs).reverse.dropWhile isJsWs).getLast? = some a := by
        rw [← List.head?_reverse]
        exact hB
      have hlast2 : ((l.dropWhile isJsWs).reverse).getLast? = some a :=
        (getLast_dropWhile isJsWs (l.dropWhile isJsWs).reverse hne).symm.trans hlast
      have hhead : (l.dropWhile isJsWs).head? = some a := by
        rw [← List.getLast?_reverse]
        exact hlast2
      exact dropWhile_of_head_false isJsWs _ a hB (head_dropWhile_false isJsWs l a hhead)
  rw [step1, List.reverse_reverse, dropWhile_dropWhile]

theorem jsTrim_idem (s : String) : jsTrim (jsTrim s) = jsTrim s := by
  show String.mk (trimChars (trimChars s.data)) = String.mk (trimChars s.data)
  rw [trimChars_idem]

theorem resolveApiKey_trimmed (envKey : String) (settings : LlmSettings) :
    jsTrim (resolveApiKey envKey settings) = resolveApiKey envKey settings := by
  unfold resolveApiKey
  by_cases h : jsTrim settings.apiKey ≠ "" <;> simp [h, jsTrim_idem]

theorem splitAtQM_append (l1 l2 : List Char) :
    splitAtQM (l1 ++ l2) = match splitAtQM l1 with
      | some q => some (q ++ l2)
      | none => splitAtQM l2 := by
  induction l1 with
  | nil => rfl
  | cons c rest ih =>
    rw [List.cons_append]
    by_cases hc : c = '?'
    · subst hc
      rfl
    · have e1 : splitAtQM (c :: (rest ++ l2))
          = if c = '?' then some (rest ++ l2) else splitAtQM (rest ++ l2) := rfl
      have e2 : splitAtQM (c :: rest)
          = if c = '?' then some rest else splitAtQM rest := rfl
      rw [e1, if_neg hc, e2, if_neg hc, ih]

theorem splitOnChar_cons (sep c : Char) (l : List Char) :
    splitOnChar sep (c :: l) = match splitOnChar sep l with
      | [] => [[c]]
      | a :: rest => if c = sep then [] :: a :: rest else (c :: a) :: rest := rfl

theorem splitOnChar_ne_nil (sep : Char) (l : List Char) : splitOnChar sep l ≠ [] := by
  induction l with
  | nil => simp [splitOnChar]
  | cons c rest ih =>
    rw [splitOnChar_cons]
    cases h : splitOnChar sep rest with
    | nil => exact absurd h ih
    | cons a r =>
      by_cases hc : c = sep <;> simp [hc]

theorem splitOnChar_sep (sep : Char) (l1 l2 : List Char) :
    splitOnChar sep (l1 ++ sep :: l2) = splitOnChar sep l1 ++ splitOnChar sep l2 := by
  induction l1 with
  | nil =>
    rw [List.nil_append, splitOnChar_cons]
    cases h : splitOnChar sep l2 with
    | nil => exact absurd h (splitOnChar_ne_nil sep l2)
    | cons a r =>
      simp [splitOnChar]
  | cons c rest ih =>
    rw [List.cons_append, splitOnChar_cons, ih, splitOnChar_cons]
    cases h : splitOnChar sep rest with
    | nil => exact absurd h (splitOnChar_ne_nil sep rest)
    | cons a r =>
      by_cases hc : c = sep <;> simp [hc]

theorem splitOnChar_no_sep (sep : Char) (l : List Char) (h : sep ∉ l) :
    splitOnChar sep l = [l] := by
  induction l with
  | nil => rfl
  | cons c rest ih =>
    have hc : c ≠ sep := fun he => h (by rw [he]; exact List.mem_cons_self sep rest)
    rw [splitOnChar_cons, ih (fun hm => h (List.mem_cons_of_mem c hm))]
    simp [hc]

theorem keyParam_name (k : List Char) : paramName ('k' :: 'e' :: 'y' :: '=' :: k) = ['k', 'e', 'y'] := rfl

theorem keyParam_value (k : List Char) : paramValue ('k' :: 'e' :: 'y' :: '=' :: k) = k := rfl

theorem withGeminiApiKey_props (mid k : String) (hk : jsTrim k = k) :
    (k = "" → withGeminiApiKey mid k = mid)
    ∧ (k ≠ "" → hasQueryParam mid.data "key".data = true → withGeminiApiKey mid k = mid)
    ∧ (k ≠ "" → hasQueryParam mid.data "key".data = false → ('&' ∉ k.data) →
        countQueryParam (withGeminiApiKey mid k).data "key".data = 1
        ∧ queryParamValues (withGeminiApiKey mid k).data "key".data = [k.data])
    ∧ (∃ X, (withGeminiApiKey mid k).data = mid.data ++ X) := by
  refine ⟨?_, ?_, ?_, ?_⟩
  · intro h
    subst h
    rfl
  · intro hne hhas
    simp only [withGeminiApiKey, hk]
    rw [if_neg hne, if_pos hhas]
  · intro hne hhas hamp
    have hurl : withGeminiApiKey mid k
        = if (splitAtQM mid.data).isSome then mid ++ "&key=" ++ k else mid ++ "?key=" ++ k := by
      simp only [withGeminiApiKey, hk]
      rw [if_neg hne, if_neg (by simp [hhas])]
    have hksafe : '&' ∉ "key=".data ++ k.data := by
      intro hm
      rcases List.mem_append.mp hm with hm | hm
      · exact absurd hm (by decide)
      · exact hamp hm
    cases hq : splitAtQM mid.data with
    | none =>
      have hq2 : (splitAtQM mid.data).isSome = false := by rw [hq]; rfl
      rw [hurl, if_neg (by simp [hq2])]
      have hdata : (mid ++ "?key=" ++ k).data = mid.data ++ ("?key=".data ++ k.data) := by
        rw [strData_append, strData_append, List.append_assoc]
      have hsplit2 : splitAtQM ((mid ++ "?key=" ++ k).data) = some ("key=".data ++ k.data) := by
        rw [hdata, splitAtQM_append, hq]
        rfl
      have hqp : queryParams ((mid ++ "?key=" ++ k).data) = ["key=".data ++ k.data] := by
        unfold queryParams
        rw [hsplit2]
        exact splitOnChar_no_sep '&' _ hksafe
      constructor
      · unfold countQueryParam
        rw [hqp]
        simp [List.filter_cons, keyParam_name]
      · unfold queryParamValues
        rw [hqp]
        simp [List.filter_cons, keyParam_name, keyParam_value]
    | some q0 =>
      have hq2 : (splitAtQM mid.data).isSome = true := by rw [hq]; rfl
      rw [hurl, if_pos (by simp [hq2])]
      have hdata : (mid ++ "&key=" ++ k).data = mid.data ++ ("&key=".data ++ k.data) := by
        rw [strData_append, strData_append, List.append_assoc]
      have hsplit2 : splitAtQM ((mid ++ "&key=" ++ k).data)
          = some (q0 ++ ('&' :: ("key=".data ++ k.data))) := by
        rw [hdata, splitAtQM_append, hq]
        rfl
      have hqp : queryParams ((mid ++ "&key=" ++ k).data)
          = splitOnChar '&' q0 ++ ["key=".data ++ k.data] := by
        unfold queryParams
        rw [hsplit2]
        show splitOnChar '&' (q0 ++ '&' :: ("key=".data ++ k.data)) = _
        rw [splitOnChar_sep, splitOnChar_no_sep '&' _ hksafe]
      have hfilter0 : (splitOnChar '&' q0).filter
          (fun p => decide (paramName p = "key".data)) = [] := by
        unfold hasQueryParam at hhas
        unfold queryParams at hhas
        rw [hq] at hhas
        rw [List.filter_eq_nil_iff]
        intro a ha
        have := List.any_eq_false.mp hhas a ha
        simpa using this
      constructor
      · unfold countQueryParam
        rw [hqp, List.filter_append, hfilter0]
        simp [List.filter_cons, keyParam_name]
      · unfold queryParamValues
        rw [hqp, List.filter_append, hfilter0]
        simp [List.filter_cons, keyParam_name, keyParam_value]
  · by_cases hk0 : k = ""
    · refine ⟨[], ?_⟩
      subst hk0
      show mid.data = mid.data ++ []
      rw [List.append_nil]
    · by_cases hhas : hasQueryParam mid.data "key".data = true
      · refine ⟨[], ?_⟩
        have e : withGeminiApiKey mid k = mid := by
          simp only [withGeminiApiKey, hk]
          rw [if_neg hk0, if_pos hhas]
        rw [e, List.append_nil]
      · have hurl : withGeminiApiKey mid k
            = if (splitAtQM mid.data).isSome then mid ++ "&key=" ++ k
              else mid ++ "?key=" ++ k := by
          simp only [withGeminiApiKey, hk]
          rw [if_neg hk0, if_neg hhas]
        by_cases hq : (splitAtQM mid.data).isSome
        · refine ⟨"&key=".data ++ k.data, ?_⟩
          rw [hurl, if_pos hq, strData_append, strData_append, List.append_assoc]
        · refine ⟨"?key=".data ++ k.data, ?_⟩
          rw [hurl, if_neg hq, strData_append, strData_append, List.append_assoc]

/-- C1 as amended: restricted to Gemini settings whose trimmed endpoint has
the shape pre ++ "/models/" ++ seg ++ ":generateContent" ++ qtail (with no
case-insensitive near-occurrence of "/models/" starting inside pre, a
nonempty segment free of ':' '/' '?', and the endpoint accepted by the
WHATWG URL parser - an endpoint new URL rejects makes the source throw a
TypeError before fetch, outside this embedding's scope), and whose trimmed
model is nonempty, free of ':' '/' '?' and free of '$' (a '$' in the model
would be subject to the $-pattern expansion of String.prototype.replace and
the rewritten segment would differ from the model): the URL complete posts
to has its model segment equal to the trimmed settings.model; if the
resolved key is nonempty, '&'-free and not already present as a query
parameter, the URL carries the key parameter with the resolved key exactly
once; the key step is the identity when a key parameter is already present
(idempotent) and when the resolved key is empty (in which case no key
parameter is added). -/
theorem gemini_url_amended (envKey : String) (messages : List Message)
    (settings : LlmSettings) (url : String) (payload : GeminiPayload)
    (pre seg qtail : List Char)
    (hb : buildChatCompletionRequest envKey messages settings = .ok (.gemini url payload))
    (hsplit : (jsTrim settings.endpoint).data
        = pre ++ ("/models/".data ++ (seg ++ (':' :: ("generateContent".data ++ qtail)))))
    (hpre : allEarlyFail pre = true)
    (hseg : seg ≠ []) (hsegc : ∀ c ∈ seg, isSegChar c = true)
    (hM : (jsTrim settings.model).data ≠ [])
    (hMc : ∀ c ∈ (jsTrim settings.model).data, isSegChar c = true)
    (hMd : ∀ c ∈ (jsTrim settings.model).data, c ≠ '$') :
    url = geminiRequestUrl envKey settings
    ∧ firstModelsSegment url.data = some (jsTrim settings.model).data
    ∧ (resolveApiKey envKey settings ≠ "" →
        hasQueryParam (withGeminiModel (jsTrim settings.endpoint) settings.model).data
          "key".data = false →
        '&' ∉ (resolveApiKey envKey settings).data →
        countQueryParam url.data "key".data = 1
        ∧ queryParamValues url.data "key".data = [(resolveApiKey envKey settings).data])
    ∧ (resolveApiKey envKey settings ≠ "" →
        hasQueryParam (withGeminiModel (jsTrim settings.endpoint) settings.model).data
          "key".data = true →
        url = withGeminiModel (jsTrim settings.endpoint) settings.model)
    ∧ (resolveApiKey envKey settings = "" →
        url = withGeminiModel (jsTrim settings.endpoint) settings.model) := by
  obtain ⟨hu, -⟩ := build_gemini_inv envKey messages settings url payload hb
  subst hu
  have hk : jsTrim (resolveApiKey envKey settings) = resolveApiKey envKey settings :=
    resolveApiKey_trimmed envKey settings
  have hM2 : jsTrim settings.model ≠ "" := by
    intro he
    apply hM
    rw [he]
  have hmid : (withGeminiModel (jsTrim settings.endpoint) settings.model).data
      = pre ++ ("/models/".data ++ ((jsTrim settings.model).data
          ++ (':' :: ("generateContent".data ++ qtail)))) := by
    simp only [withGeminiModel]
    rw [if_neg hM2]
    show geminiModelScan (jsTrim settings.model).data [] (jsTrim settings.endpoint).data = _
    rw [hsplit, replace_skip _ pre _ [] hpre, List.nil_append,
      replace_at_models _ seg qtail pre hseg hsegc hMd]
  have hprops := withGeminiApiKey_props
    (withGeminiModel (jsTrim settings.endpoint) settings.model)
    (resolveApiKey envKey settings) hk
  have hobs : ∀ X : List Char,
      firstModelsSegment
        ((withGeminiModel (jsTrim settings.endpoint) settings.model).data ++ X)
        = some (jsTrim settings.model).data := by
    intro X
    rw [hmid]
    simp only [List.append_assoc, List.cons_append]
    rw [firstSeg_skip pre _ hpre]
    exact firstSeg_at_models _ _ hM hMc
  refine ⟨rfl, ?_, ?_, ?_, ?_⟩
  · obtain ⟨X, hX⟩ := hprops.2.2.2
    show firstModelsSegment (withGeminiApiKey
      (withGeminiModel (jsTrim settings.endpoint) settings.model)
      (resolveApiKey envKey settings)).data = _
    rw [hX]
    exact hobs X
  · intro h1 h2 h3
    exact hprops.2.2.1 h1 h2 h3
  · intro h1 h2
    exact hprops.2.1 h1 h2
  · intro h1
    exact hprops.1 h1

/-- Witness for C1 on the Gemini preset endpoint with model
gemini-1.5-pro and an AIza key. -/
theorem gemini_url_amended_witness :
    firstModelsSegment (geminiRequestUrl "" gemSettings).data
        = some (jsTrim gemSettings.model).data
    ∧ countQueryParam (geminiRequestUrl "" gemSettings).data "key".data = 1
    ∧ queryParamValues (geminiRequestUrl "" gemSettings).data "key".data
        = [(resolveApiKey "" gemSettings).data] := by
  have h := gemini_url_amended "" [] gemSettings
    (geminiRequestUrl "" gemSettings) (geminiCompletionPayload [] gemSettings)
    "https://generativelanguage.googleapis.com/v1beta".data
    "gemini-1.5-flash".data []
    (by decide) (by decide) (by decide) (by decide) (by decide) (by decide) (by decide)
    (by decide)
  exact ⟨h.2.1,
    (h.2.2.1 (by decide) (by decide) (by decide)).1,
    (h.2.2.1 (by decide) (by decide) (by decide)).2⟩

end GOD
